import Mathlib

/-!
# Verification of the bucketbench benchmark core

Shallow embedding, in Lean 4, of the parts of the `estesp/bucketbench`
repository that the specification's claims are about:

* `benches/custom.go` — the `CustomBench` executor (`Run`, `runThread`,
  `Stats`), including the per-command dispatch switch and the container
  name generation `fmt.Sprintf("bb-ctr-%d-%d", threadNum, i)`;
* `cmd/root.go` (run subcommand) — the statistics aggregation
  (`parseStats`, `parseMetrics`, `filterStats`, `getDelta`, `intSum`);
* `driver` package — the backend factory (`StringToType`, `New`).

Go `map[string]V` values are embedded as association lists
(`List (String × V)`): `mapGet` is map read (returning `Option`),
`mapGetD` is map read with the zero value for absent keys (Go's read of a
missing key), and `mapSet` is map write.  The iteration order of an
association list is its insertion order; every map-level fact proved here
is order-independent, so this determinization is harmless.

Go `float64` values are embedded as `ℚ`; `math.Inf(1)` is the extra
constructor `GoFloat.inf`.  Go `time.Duration` (an `int64` of
nanoseconds) is embedded as `Int`.
-/

namespace benches

/-- Map read: Go `v, ok := m[k]` (the `ok` is `isSome`).  First binding
wins, matching unique-key Go map semantics. -/
def mapGet (m : List (String × α)) (k : String) : Option α :=
  List.lookup k m

/-- Map read with Go's zero-value default for a missing key
(`v := m[k]` when `k` may be absent). -/
def mapGetD [Inhabited α] (m : List (String × α)) (k : String) : α :=
  (List.lookup k m).getD default

/-- Map write: Go `m[k] = v`. -/
def mapSet (m : List (String × α)) (k : String) (v : α) : List (String × α) :=
  match m with
  | [] => [(k, v)]
  | (k', v') :: rest => if k' = k then (k, v) :: rest else (k', v') :: mapSet rest k v

theorem mapGet_mapSet_self (m : List (String × α)) (k : String) (v : α) :
    mapGet (mapSet m k v) k = some v := by
  induction m with
  | nil => simp [mapGet, mapSet]
  | cons p rest ih =>
    obtain ⟨k', v'⟩ := p
    by_cases h : k' = k
    · simp [mapGet, mapSet, h, List.lookup_cons]
    · have hbeq : (k == k') = false := beq_eq_false_iff_ne.mpr (Ne.symm h)
      simpa [mapGet, mapSet, h, List.lookup_cons, hbeq] using ih

theorem mapGet_mapSet_ne (m : List (String × α)) {k k' : String} (v : α) (h : k' ≠ k) :
    mapGet (mapSet m k v) k' = mapGet m k' := by
  have hbeq : (k' == k) = false := beq_eq_false_iff_ne.mpr h
  induction m with
  | nil => simp [mapGet, mapSet, List.lookup_cons, hbeq]
  | cons p rest ih =>
    obtain ⟨k₀, v₀⟩ := p
    by_cases h₀ : k₀ = k
    · subst h₀
      simp [mapGet, mapSet, List.lookup_cons, hbeq]
    · by_cases h₁ : k' = k₀
      · subst h₁
        simp [mapGet, mapSet, h₀, List.lookup_cons]
      · have hbeq₁ : (k' == k₀) = false := beq_eq_false_iff_ne.mpr h₁
        simpa [mapGet, mapSet, h₀, List.lookup_cons, hbeq₁] using ih

theorem mapGetD_mapSet_self [Inhabited α] (m : List (String × α)) (k : String) (v : α) :
    mapGetD (mapSet m k v) k = v := by
  simp [mapGetD, show List.lookup k (mapSet m k v) = some v from mapGet_mapSet_self m k v]

theorem mapGetD_mapSet_ne [Inhabited α] (m : List (String × α)) {k k' : String} (v : α)
    (h : k' ≠ k) : mapGetD (mapSet m k v) k' = mapGetD m k' := by
  simp [mapGetD, show List.lookup k' (mapSet m k v) = List.lookup k' m from
    mapGet_mapSet_ne m v h]

/-- Decimal rendering of a nonnegative integer, as produced by Go's
`fmt.Sprintf("%d", n)` for a nonnegative `int`: the usual base-10
numeral, most significant digit first, with `0` rendered as `"0"`. -/
def natDecChars (n : Nat) : List Char :=
  if n = 0 then ['0'] else ((Nat.digits 10 n).map Nat.digitChar).reverse

/-- Container name built by `runThread`:
`fmt.Sprintf("bb-ctr-%d-%d", threadNum, i)`. -/
def containerName (threadNum i : Nat) : String :=
  "bb-ctr-" ++ ⟨natDecChars threadNum⟩ ++ "-" ++ ⟨natDecChars i⟩

theorem digitChar_mem_digitSet {d : Nat} (hd : d < 10) :
    Nat.digitChar d ∈ (['0', '1', '2', '3', '4', '5', '6', '7', '8', '9'] : List Char) := by
  interval_cases d <;> decide

theorem digitChar_inj_lt {a b : Nat} (ha : a < 10) (hb : b < 10)
    (h : Nat.digitChar a = Nat.digitChar b) : a = b := by
  interval_cases a <;> interval_cases b <;> first | rfl | (exfalso; exact absurd h (by decide))

theorem natDecChars_no_dash (n : Nat) : '-' ∉ natDecChars n := by
  unfold natDecChars
  by_cases h : n = 0
  · simp [h]
  · simp only [h, if_false, List.mem_reverse, List.mem_map]
    rintro ⟨d, hd, hdc⟩
    have hlt : d < 10 := Nat.digits_lt_base (by norm_num) hd
    have := digitChar_mem_digitSet hlt
    rw [hdc] at this
    exact absurd this (by decide)

theorem digits_ten_ne_zero_singleton {n : Nat} (hn : n ≠ 0) : Nat.digits 10 n ≠ [0] := by
  intro hd
  have h1 : (Nat.digits 10 n).getLast? = some 0 := by rw [hd]; rfl
  have h2 := Nat.getLast_digit_ne_zero 10 hn
  rw [List.getLast?_eq_getLast _ (by rw [hd]; simp)] at h1
  exact h2 (Option.some_inj.mp h1)

theorem natDecChars_pos_ne_zero_numeral {n : Nat} (hn : n ≠ 0) : natDecChars n ≠ ['0'] := by
  intro h
  unfold natDecChars at h
  simp only [hn, if_false] at h
  have hdig : (Nat.digits 10 n).map Nat.digitChar = ['0'] := by
    have := congrArg List.reverse h
    simpa using this
  have hlen : (Nat.digits 10 n).length = 1 := by
    have := congrArg List.length hdig
    simpa using this
  obtain ⟨d, hd⟩ := List.length_eq_one.mp hlen
  rw [hd] at hdig
  simp only [List.map_cons, List.map_nil, List.cons.injEq, and_true] at hdig
  have hlt : d < 10 := Nat.digits_lt_base (by norm_num) (hd ▸ List.mem_singleton.mpr rfl)
  have hd0 : d = 0 := digitChar_inj_lt hlt (by norm_num) (by simpa using hdig)
  exact digits_ten_ne_zero_singleton hn (hd0 ▸ hd)

theorem natDecChars_injective : Function.Injective natDecChars := by
  intro m n h
  by_cases hm : m = 0 <;> by_cases hn : n = 0
  · exact hm.trans hn.symm
  · exfalso
    apply natDecChars_pos_ne_zero_numeral hn
    rw [← h, hm]
    rfl
  · exfalso
    apply natDecChars_pos_ne_zero_numeral hm
    rw [h, hn]
    rfl
  · unfold natDecChars at h
    simp only [hm, hn, if_false] at h
    have hmap : (Nat.digits 10 m).map Nat.digitChar = (Nat.digits 10 n).map Nat.digitChar := by
      have := congrArg List.reverse h
      simpa using this
    have hdigits : Nat.digits 10 m = Nat.digits 10 n := by
      have hall : ∀ l₁ l₂ : List Nat, (∀ x ∈ l₁, x < 10) → (∀ x ∈ l₂, x < 10) →
          l₁.map Nat.digitChar = l₂.map Nat.digitChar → l₁ = l₂ := by
        intro l₁
        induction l₁ with
        | nil => intro l₂ _ _ hmap'; cases l₂ <;> simp_all
        | cons a l₁ ih =>
          intro l₂ h₁ h₂ hmap'
          cases l₂ with
          | nil => simp at hmap'
          | cons b l₂ =>
            simp only [List.map_cons, List.cons.injEq] at hmap'
            have hab : a = b := digitChar_inj_lt (h₁ a (by simp)) (h₂ b (by simp)) hmap'.1
            have := ih l₂ (fun x hx => h₁ x (by simp [hx])) (fun x hx => h₂ x (by simp [hx]))
              hmap'.2
            simp [hab, this]
      exact hall _ _ (fun x hx => Nat.digits_lt_base (by norm_num) hx)
        (fun x hx => Nat.digits_lt_base (by norm_num) hx) hmap
    have := congrArg (Nat.ofDigits 10) hdigits
    simpa [Nat.ofDigits_digits] using this

/-- Splitting a character list at a separator that occurs in neither
left part is unambiguous. -/
theorem append_dash_inj : ∀ (a c : List Char) {b d : List Char},
    '-' ∉ a → '-' ∉ c → a ++ '-' :: b = c ++ '-' :: d → a = c ∧ b = d := by
  intro a
  induction a with
  | nil =>
    intro c b d _ hc h
    cases c with
    | nil => simpa using h
    | cons x c' =>
      exfalso
      simp only [List.nil_append, List.cons_append, List.cons.injEq] at h
      exact hc (h.1 ▸ List.mem_cons_self x c')
  | cons x a' ih =>
    intro c b d ha hc h
    cases c with
    | nil =>
      exfalso
      simp only [List.cons_append, List.nil_append, List.cons.injEq] at h
      exact ha (h.1.symm ▸ List.mem_cons_self x a')
    | cons y c' =>
      simp only [List.cons_append, List.cons.injEq] at h
      obtain ⟨hxy, htail⟩ := h
      have ha' : '-' ∉ a' := fun hmem => ha (List.mem_cons_of_mem x hmem)
      have hc' : '-' ∉ c' := fun hmem => hc (List.mem_cons_of_mem y hmem)
      obtain ⟨h₁, h₂⟩ := ih c' ha' hc' htail
      exact ⟨by simp [hxy, h₁], h₂⟩

theorem containerName_data (t i : Nat) :
    (containerName t i).data =
      "bb-ctr-".data ++ (natDecChars t ++ '-' :: natDecChars i) := by
  simp [containerName, String.data_append]

theorem containerName_inj_aux {t₁ i₁ t₂ i₂ : Nat}
    (h : containerName t₁ i₁ = containerName t₂ i₂) : t₁ = t₂ ∧ i₁ = i₂ := by
  have hdata := congrArg String.data h
  rw [containerName_data, containerName_data] at hdata
  have htail := List.append_cancel_left hdata
  obtain ⟨h₁, h₂⟩ := append_dash_inj _ _ (natDecChars_no_dash t₁) (natDecChars_no_dash t₂) htail
  exact ⟨natDecChars_injective h₁, natDecChars_injective h₂⟩

/-! ## The `CustomBench` executor (`benches/custom.go`)

The `driver.Driver` interface is embedded as a structure of pure
functions: each lifecycle operation returns the Go triple
`(output, elapsed, error)`.  The fixed per-bench arguments of `Create`
(`imageInfo`, `cmdOverride`, `detached`, `trace`) are absorbed into the
driver's `create` field, which is keyed by the one argument that varies
per iteration: the container name.  Driver invocations are additionally
recorded in an observation trace so that "invokes the corresponding
driver operation" is a statable property. -/

/-- Which driver operation was invoked (observation trace element). -/
inductive OpKind
  | create
  | run
  | stop
  | remove
  | pause
  | unpause
deriving DecidableEq, Repr

/-- Container handle (`driver.Container`); only the name matters to the
executor model. -/
structure Container where
  name : String
deriving DecidableEq, Repr

/-- Result triple `(output, elapsed-milliseconds, error)` of one driver
lifecycle call.  In this snapshot of `benches/custom.go` the elapsed
value is the Go `int` of milliseconds. -/
structure OpResult where
  out : String
  elapsed : Int
  err : Option String
deriving DecidableEq, Repr

/-- Embedding of `driver.Driver` as used by `CustomBench.runThread` and
`CustomBench.Run`: pure result tables for each lifecycle operation plus
the result of `Clean`. -/
structure Driver where
  create : String → Container × Option String
  run : Container → OpResult
  stop : Container → OpResult
  remove : Container → OpResult
  pause : Container → OpResult
  unpause : Container → OpResult
  clean : Option String

/-- Record `RunStatistics` as assembled by `runThread` in this snapshot of
`benches/custom.go`: per-command duration map and per-command error
count map. -/
structure RunStatistics where
  Durations : List (String × Int)
  Errors : List (String × Int)
deriving DecidableEq, Repr

/-- Benchmark state constants (`Created`, `Running`, `Completed`). -/
inductive State
  | Created
  | Running
  | Completed
deriving DecidableEq, Repr

/-- The fields of `CustomBench` the claims are about. -/
structure CustomBench where
  driver : Driver
  stats : List RunStatistics
  state : State

/-- A freshly initialized `CustomBench` (after `Init`): no statistics,
state `Created`. -/
def initBench (d : Driver) : CustomBench :=
  { driver := d, stats := [], state := State.Created }

/-- Error count read `errors[cmd]` with Go's zero value for a missing
key. -/
def errCount (m : List (String × Int)) (k : String) : Int :=
  (mapGet m k).getD 0

/-- Go `errors[cmd]++`. -/
def errBump (m : List (String × Int)) (k : String) : List (String × Int) :=
  mapSet m k (errCount m k + 1)

/-- Per-iteration mutable state of `runThread`'s inner command loop:
the `durations` and `errors` maps, plus the driver-invocation trace. -/
structure IterState where
  durations : List (String × Int)
  errors : List (String × Int)
  trace : List OpKind
deriving DecidableEq, Repr

/-- Go `strings.ToLower`, restricted to the ASCII range (the recognized
command tokens are all ASCII): lowercases each character. -/
def strToLower (s : String) : String :=
  ⟨s.data.map Char.toLower⟩

/-- One arm of `runThread`'s command `switch` (custom.go lines 124-163):
dispatch on `strings.ToLower(cmd)`, invoke the matching driver
operation, increment `errors[cmd]` if it failed, and store the elapsed
time in `durations[cmd]` (keyed by the original token).  An unrecognized
token only logs and leaves the state untouched. -/
def processCmd (d : Driver) (ctr : Container) (st : IterState) (cmd : String) : IterState :=
  let l := strToLower cmd
  if l = "run" ∨ l = "start" then
    let r := d.run ctr
    { durations := mapSet st.durations cmd r.elapsed
      errors := if r.err.isSome then errBump st.errors cmd else st.errors
      trace := st.trace ++ [OpKind.run] }
  else if l = "stop" ∨ l = "kill" then
    let r := d.stop ctr
    { durations := mapSet st.durations cmd r.elapsed
      errors := if r.err.isSome then errBump st.errors cmd else st.errors
      trace := st.trace ++ [OpKind.stop] }
  else if l = "remove" ∨ l = "erase" ∨ l = "delete" then
    let r := d.remove ctr
    { durations := mapSet st.durations cmd r.elapsed
      errors := if r.err.isSome then errBump st.errors cmd else st.errors
      trace := st.trace ++ [OpKind.remove] }
  else if l = "pause" then
    let r := d.pause ctr
    { durations := mapSet st.durations cmd r.elapsed
      errors := if r.err.isSome then errBump st.errors cmd else st.errors
      trace := st.trace ++ [OpKind.pause] }
  else if l = "unpause" ∨ l = "resume" then
    let r := d.unpause ctr
    { durations := mapSet st.durations cmd r.elapsed
      errors := if r.err.isSome then errBump st.errors cmd else st.errors
      trace := st.trace ++ [OpKind.unpause] }
  else
    st

/-- Result of one iteration: the emitted `RunStatistics` record plus the
driver-invocation trace. -/
structure IterResult where
  stat : RunStatistics
  trace : List OpKind
deriving DecidableEq, Repr

/-- One iteration of `runThread` (custom.go lines 113-168): fresh empty
maps, a container created under the generated name (a `Create` error is
only logged; the commands are still attempted against the returned
handle), the command loop, and the emission of one `RunStatistics`. -/
def runIteration (d : Driver) (threadNum i : Nat) (commands : List String) : IterResult :=
  let name := containerName threadNum i
  let ctr := (d.create name).1
  let st := commands.foldl (processCmd d ctr) ⟨[], [], [OpKind.create]⟩
  ⟨⟨st.durations, st.errors⟩, st.trace⟩

/-- Function `runThread`: `iterations` iterations in increasing order; the
per-thread channel of capacity `iterations` is drained in send order, so
the thread contributes its records in iteration order. -/
def runThread (d : Driver) (threadNum iterations : Nat) (commands : List String) :
    List RunStatistics :=
  (List.range iterations).map fun i => (runIteration d threadNum i commands).stat

/-- Fan-out/fan-in of `CustomBench.Run` (custom.go lines 90-103): one
`runThread` per thread index `0..threads-1`, each thread's records
drained into `cb.stats` in thread order. -/
def collectStats (d : Driver) (threads iterations : Nat) (commands : List String) :
    List RunStatistics :=
  (List.range threads).flatMap fun t => runThread d t iterations commands

/-- Method `CustomBench.Run` (custom.go lines 82-110): set state `Running`,
run the threads, drain their channels into `cb.stats`, set state
`Completed`, then run the final `driver.Clean()`, whose error (if any)
is the value `Run` returns. -/
def RunBench (cb : CustomBench) (threads iterations : Nat) (commands : List String) :
    CustomBench × Option String :=
  let running := { cb with state := State.Running }
  let collected := collectStats running.driver threads iterations commands
  let done := { running with stats := running.stats ++ collected, state := State.Completed }
  (done, done.driver.clean)

/-- Method `CustomBench.Stats` (custom.go lines 175-180): the collected records
if the state is `Completed`, the empty slice otherwise. -/
def Stats (cb : CustomBench) : List RunStatistics :=
  if cb.state = State.Completed then cb.stats else []

/-! ### Lemmas about the command loop -/

theorem errCount_errBump_self (m : List (String × Int)) (k : String) :
    errCount (errBump m k) k = errCount m k + 1 := by
  simp [errBump, errCount, mapGet_mapSet_self]

theorem errCount_errBump_le (m : List (String × Int)) (k k' : String) :
    errCount m k' ≤ errCount (errBump m k) k' := by
  by_cases h : k' = k
  · subst h
    rw [errCount_errBump_self]
    omega
  · rw [errBump, errCount, errCount, mapGet_mapSet_ne _ _ h]

theorem errCount_processCmd_le (d : Driver) (ctr : Container) (st : IterState)
    (cmd k : String) :
    errCount st.errors k ≤ errCount (processCmd d ctr st cmd).errors k := by
  simp only [processCmd]
  split_ifs <;> first | exact le_refl _ | exact errCount_errBump_le _ _ _

theorem errCount_foldl_le (d : Driver) (ctr : Container) (cmds : List String)
    (st : IterState) (k : String) :
    errCount st.errors k ≤ errCount (cmds.foldl (processCmd d ctr) st).errors k := by
  induction cmds generalizing st with
  | nil => exact le_refl _
  | cons c cmds ih =>
    calc errCount st.errors k ≤ errCount (processCmd d ctr st c).errors k :=
          errCount_processCmd_le d ctr st c k
      _ ≤ _ := ih (processCmd d ctr st c)

theorem processCmd_stop_fail_bumps (d : Driver) (ctr : Container) (st : IterState)
    (hfail : (d.stop ctr).err.isSome) :
    errCount (processCmd d ctr st "stop").errors "stop" =
      errCount st.errors "stop" + 1 := by
  have h1 : strToLower "stop" = "stop" := rfl
  have h2 : ¬("stop" = "run" ∨ "stop" = "start") := by decide
  simp only [processCmd, h1, if_neg h2, if_pos (Or.inl rfl : "stop" = "stop" ∨ "stop" = "kill")]
  simp [hfail, errCount_errBump_self]

theorem runIteration_stop_fail (d : Driver) (t i : Nat) (commands : List String)
    (hfail : ∀ c, (d.stop c).err.isSome) (hmem : "stop" ∈ commands) :
    1 ≤ errCount (runIteration d t i commands).stat.Errors "stop" := by
  obtain ⟨l₁, l₂, rfl⟩ := List.append_of_mem hmem
  unfold runIteration
  simp only [List.foldl_append, List.foldl_cons]
  set ctr := (d.create (containerName t i)).1
  set st₁ := l₁.foldl (processCmd d ctr) ⟨[], [], [OpKind.create]⟩
  have h0 : (0 : Int) ≤ errCount st₁.errors "stop" := by
    have := errCount_foldl_le d ctr l₁ ⟨[], [], [OpKind.create]⟩ "stop"
    simpa [errCount, mapGet] using this
  have hstep : errCount (processCmd d ctr st₁ "stop").errors "stop" =
      errCount st₁.errors "stop" + 1 := processCmd_stop_fail_bumps d ctr st₁ (hfail ctr)
  have hrest := errCount_foldl_le d ctr l₂ (processCmd d ctr st₁ "stop") "stop"
  rw [hstep] at hrest
  omega

theorem runThread_length (d : Driver) (t n : Nat) (commands : List String) :
    (runThread d t n commands).length = n := by
  simp [runThread]

theorem collectStats_length (d : Driver) (threads iterations : Nat)
    (commands : List String) :
    (collectStats d threads iterations commands).length = threads * iterations := by
  simp only [collectStats, List.length_flatMap]
  have : ∀ t : Nat, ((fun t => runThread d t iterations commands) t).length = iterations :=
    fun t => runThread_length d t iterations commands
  calc ((List.range threads).map fun t => (runThread d t iterations commands).length).sum
      = ((List.range threads).map fun _ => iterations).sum := by
        congr 1
        exact List.map_congr_left fun t _ => runThread_length d t iterations commands
    _ = threads * iterations := by
        simp [List.map_const', List.sum_replicate, smul_eq_mul]

theorem mem_collectStats (d : Driver) {threads iterations : Nat} {commands : List String}
    {s : RunStatistics} (hs : s ∈ collectStats d threads iterations commands) :
    ∃ t i, s = (runIteration d t i commands).stat := by
  simp only [collectStats, List.mem_flatMap, runThread, List.mem_map,
    List.mem_range] at hs
  obtain ⟨t, _, i, _, hsi⟩ := hs
  exact ⟨t, i, hsi.symm⟩

/-! ### Claim theorems for the executor -/

/-- C1: in a run of `threads × iterations` whose workload contains the
token `"stop"`, with a driver whose `Stop` always fails and whose
`Clean` succeeds, `Run` still emits exactly `threads * iterations`
`RunStatistics` records, each with a nonzero error count under the key
`"stop"`, and `Run` returns nil: a per-operation failure aborts neither
the iteration, nor the thread, nor the run. -/
theorem customBench_error_isolation (d : Driver) (threads iterations : Nat)
    (commands : List String) (hstop : ∀ c, (d.stop c).err.isSome)
    (hclean : d.clean = none) (hmem : "stop" ∈ commands) :
    (RunBench (initBench d) threads iterations commands).1.stats.length =
        threads * iterations ∧
    (∀ s ∈ (RunBench (initBench d) threads iterations commands).1.stats,
        1 ≤ errCount s.Errors "stop") ∧
    (RunBench (initBench d) threads iterations commands).2 = none := by
  refine ⟨?_, ?_, ?_⟩
  · simp [RunBench, initBench, collectStats_length]
  · intro s hs
    simp only [RunBench, initBench, List.nil_append] at hs
    obtain ⟨t, i, rfl⟩ := mem_collectStats d hs
    exact runIteration_stop_fail d t i commands hstop hmem
  · simp [RunBench, initBench, hclean]

/-- A mock driver whose `Stop` operation always fails and whose `Clean`
succeeds; used to instantiate the executor claims on concrete inputs. -/
def mockStopFail : Driver :=
  { create := fun n => (⟨n⟩, none)
    run := fun _ => ⟨"", 7, none⟩
    stop := fun _ => ⟨"", 3, some "stop failure"⟩
    remove := fun _ => ⟨"", 2, none⟩
    pause := fun _ => ⟨"", 1, none⟩
    unpause := fun _ => ⟨"", 1, none⟩
    clean := none }

/-- Witness for C1: the 3 threads × 5 iterations scenario of the spec. -/
theorem customBench_error_isolation_witness :
    (RunBench (initBench mockStopFail) 3 5 ["run", "stop", "remove"]).1.stats.length =
        3 * 5 ∧
    (∀ s ∈ (RunBench (initBench mockStopFail) 3 5 ["run", "stop", "remove"]).1.stats,
        1 ≤ errCount s.Errors "stop") ∧
    (RunBench (initBench mockStopFail) 3 5 ["run", "stop", "remove"]).2 = none :=
  customBench_error_isolation mockStopFail 3 5 ["run", "stop", "remove"]
    (fun _ => rfl) rfl (by decide)

/-- C2: distinct (thread, iteration) pairs always yield distinct
generated container names `bb-ctr-<thread>-<iteration>`. -/
theorem containerName_pairwise_distinct (t₁ i₁ t₂ i₂ : Nat)
    (h : (t₁, i₁) ≠ (t₂, i₂)) : containerName t₁ i₁ ≠ containerName t₂ i₂ := by
  intro he
  obtain ⟨ht, hi⟩ := containerName_inj_aux he
  exact h (by simp [ht, hi])

/-- Witness for C2 at a concrete pair of index pairs. -/
theorem containerName_pairwise_distinct_witness :
    containerName 2 11 ≠ containerName 21 1 :=
  containerName_pairwise_distinct 2 11 21 1 (by decide)

/-- The lowercased tokens the command `switch` recognizes. -/
def recognizedTokens : List String :=
  ["run", "start", "stop", "kill", "remove", "erase", "delete", "pause", "unpause", "resume"]

theorem processCmd_run_alias (d : Driver) (ctr : Container) (st : IterState) (cmd : String)
    (h : strToLower cmd = "run" ∨ strToLower cmd = "start") :
    processCmd d ctr st cmd =
      { durations := mapSet st.durations cmd (d.run ctr).elapsed
        errors := if (d.run ctr).err.isSome then errBump st.errors cmd else st.errors
        trace := st.trace ++ [OpKind.run] } := by
  simp only [processCmd, if_pos h]

theorem processCmd_stop_alias (d : Driver) (ctr : Container) (st : IterState) (cmd : String)
    (h : strToLower cmd = "stop" ∨ strToLower cmd = "kill") :
    processCmd d ctr st cmd =
      { durations := mapSet st.durations cmd (d.stop ctr).elapsed
        errors := if (d.stop ctr).err.isSome then errBump st.errors cmd else st.errors
        trace := st.trace ++ [OpKind.stop] } := by
  have h1 : ¬(strToLower cmd = "run" ∨ strToLower cmd = "start") := by
    rcases h with h | h <;> rw [h] <;> decide
  simp only [processCmd, if_neg h1, if_pos h]

theorem processCmd_remove_alias (d : Driver) (ctr : Container) (st : IterState) (cmd : String)
    (h : strToLower cmd = "remove" ∨ strToLower cmd = "erase" ∨ strToLower cmd = "delete") :
    processCmd d ctr st cmd =
      { durations := mapSet st.durations cmd (d.remove ctr).elapsed
        errors := if (d.remove ctr).err.isSome then errBump st.errors cmd else st.errors
        trace := st.trace ++ [OpKind.remove] } := by
  have h1 : ¬(strToLower cmd = "run" ∨ strToLower cmd = "start") := by
    rcases h with h | h | h <;> rw [h] <;> decide
  have h2 : ¬(strToLower cmd = "stop" ∨ strToLower cmd = "kill") := by
    rcases h with h | h | h <;> rw [h] <;> decide
  simp only [processCmd, if_neg h1, if_neg h2, if_pos h]

theorem processCmd_pause_alias (d : Driver) (ctr : Container) (st : IterState) (cmd : String)
    (h : strToLower cmd = "pause") :
    processCmd d ctr st cmd =
      { durations := mapSet st.durations cmd (d.pause ctr).elapsed
        errors := if (d.pause ctr).err.isSome then errBump st.errors cmd else st.errors
        trace := st.trace ++ [OpKind.pause] } := by
  have h1 : ¬(strToLower cmd = "run" ∨ strToLower cmd = "start") := by rw [h]; decide
  have h2 : ¬(strToLower cmd = "stop" ∨ strToLower cmd = "kill") := by rw [h]; decide
  have h3 : ¬(strToLower cmd = "remove" ∨ strToLower cmd = "erase" ∨
      strToLower cmd = "delete") := by rw [h]; decide
  simp only [processCmd, if_neg h1, if_neg h2, if_neg h3, if_pos h]

theorem processCmd_unpause_alias (d : Driver) (ctr : Container) (st : IterState) (cmd : String)
    (h : strToLower cmd = "unpause" ∨ strToLower cmd = "resume") :
    processCmd d ctr st cmd =
      { durations := mapSet st.durations cmd (d.unpause ctr).elapsed
        errors := if (d.unpause ctr).err.isSome then errBump st.errors cmd else st.errors
        trace := st.trace ++ [OpKind.unpause] } := by
  have h1 : ¬(strToLower cmd = "run" ∨ strToLower cmd = "start") := by
    rcases h with h | h <;> rw [h] <;> decide
  have h2 : ¬(strToLower cmd = "stop" ∨ strToLower cmd = "kill") := by
    rcases h with h | h <;> rw [h] <;> decide
  have h3 : ¬(strToLower cmd = "remove" ∨ strToLower cmd = "erase" ∨
      strToLower cmd = "delete") := by
    rcases h with h | h <;> rw [h] <;> decide
  have h4 : ¬(strToLower cmd = "pause") := by
    rcases h with h | h <;> rw [h] <;> decide
  simp only [processCmd, if_neg h1, if_neg h2, if_neg h3, if_neg h4, if_pos h]

theorem processCmd_unrecognized (d : Driver) (ctr : Container) (st : IterState) (cmd : String)
    (h : strToLower cmd ∉ recognizedTokens) : processCmd d ctr st cmd = st := by
  simp only [recognizedTokens, List.mem_cons, List.not_mem_nil, or_false, not_or] at h
  obtain ⟨h₁, h₂, h₃, h₄, h₅, h₆, h₇, h₈, h₉, h₁₀⟩ := h
  simp only [processCmd, if_neg (not_or.mpr ⟨h₁, h₂⟩), if_neg (not_or.mpr ⟨h₃, h₄⟩),
    if_neg (not_or.mpr ⟨h₅, not_or.mpr ⟨h₆, h₇⟩⟩), if_neg h₈,
    if_neg (not_or.mpr ⟨h₉, h₁₀⟩)]

/-- C3: the executor matches each token case-insensitively against the
recognized alias set, invokes the matching driver operation (visible in
the trace), and records duration and error keyed by the original token;
an unrecognized token invokes nothing, changes nothing, and — inserted
anywhere into a workload — leaves the iteration's emitted record and
trace unchanged. -/
theorem command_dispatch_spec (d : Driver) (ctr : Container) (st : IterState)
    (cmd u : String) (t i : Nat) (l₁ l₂ : List String) :
    (strToLower cmd = "run" ∨ strToLower cmd = "start" →
      processCmd d ctr st cmd =
        { durations := mapSet st.durations cmd (d.run ctr).elapsed
          errors := if (d.run ctr).err.isSome then errBump st.errors cmd else st.errors
          trace := st.trace ++ [OpKind.run] }) ∧
    (strToLower cmd = "stop" ∨ strToLower cmd = "kill" →
      processCmd d ctr st cmd =
        { durations := mapSet st.durations cmd (d.stop ctr).elapsed
          errors := if (d.stop ctr).err.isSome then errBump st.errors cmd else st.errors
          trace := st.trace ++ [OpKind.stop] }) ∧
    (strToLower cmd = "remove" ∨ strToLower cmd = "erase" ∨ strToLower cmd = "delete" →
      processCmd d ctr st cmd =
        { durations := mapSet st.durations cmd (d.remove ctr).elapsed
          errors := if (d.remove ctr).err.isSome then errBump st.errors cmd else st.errors
          trace := st.trace ++ [OpKind.remove] }) ∧
    (strToLower cmd = "pause" →
      processCmd d ctr st cmd =
        { durations := mapSet st.durations cmd (d.pause ctr).elapsed
          errors := if (d.pause ctr).err.isSome then errBump st.errors cmd else st.errors
          trace := st.trace ++ [OpKind.pause] }) ∧
    (strToLower cmd = "unpause" ∨ strToLower cmd = "resume" →
      processCmd d ctr st cmd =
        { durations := mapSet st.durations cmd (d.unpause ctr).elapsed
          errors := if (d.unpause ctr).err.isSome then errBump st.errors cmd else st.errors
          trace := st.trace ++ [OpKind.unpause] }) ∧
    (strToLower cmd ∉ recognizedTokens → processCmd d ctr st cmd = st) ∧
    (strToLower u ∉ recognizedTokens →
      runIteration d t i (l₁ ++ u :: l₂) = runIteration d t i (l₁ ++ l₂)) := by
  refine ⟨processCmd_run_alias d ctr st cmd, processCmd_stop_alias d ctr st cmd,
    processCmd_remove_alias d ctr st cmd, processCmd_pause_alias d ctr st cmd,
    processCmd_unpause_alias d ctr st cmd, processCmd_unrecognized d ctr st cmd, ?_⟩
  intro hu
  unfold runIteration
  have hstep : ∀ st' : IterState,
      processCmd d (d.create (containerName t i)).1 st' u = st' :=
    fun st' => processCmd_unrecognized d _ st' u hu
  simp only [List.foldl_append, List.foldl_cons, hstep]

/-- Witness for C3: a lowercase-matched recognized token, an
unrecognized token, and an unrecognized token inserted into a concrete
workload. -/
theorem command_dispatch_spec_witness :
    processCmd mockStopFail ⟨"bb-ctr-0-0"⟩ ⟨[], [], []⟩ "RUN" =
      { durations := [("RUN", 7)], errors := [], trace := [OpKind.run] } ∧
    processCmd mockStopFail ⟨"bb-ctr-0-0"⟩ ⟨[], [], []⟩ "bogus" = ⟨[], [], []⟩ ∧
    runIteration mockStopFail 0 0 ["run", "bogus", "stop"] =
      runIteration mockStopFail 0 0 ["run", "stop"] := by
  have h := command_dispatch_spec mockStopFail ⟨"bb-ctr-0-0"⟩ ⟨[], [], []⟩
    "RUN" "bogus" 0 0 ["run"] ["stop"]
  have h' := command_dispatch_spec mockStopFail ⟨"bb-ctr-0-0"⟩ ⟨[], [], []⟩
    "bogus" "bogus" 0 0 ["run"] ["stop"]
  refine ⟨?_, h'.2.2.2.2.2.1 (by decide), ?_⟩
  · rw [h.1 (Or.inl rfl)]
    decide
  · have := h.2.2.2.2.2.2 (by decide)
    simpa using this

/-- C10: when a recognized command's driver call fails, the elapsed
value it returned is still stored in the duration map under the original
token, in addition to the error count being incremented. -/
theorem failed_op_duration_recorded (d : Driver) (ctr : Container) (st : IterState)
    (cmd : String) :
    (strToLower cmd = "run" ∨ strToLower cmd = "start" → (d.run ctr).err.isSome →
      mapGet (processCmd d ctr st cmd).durations cmd = some (d.run ctr).elapsed ∧
      errCount (processCmd d ctr st cmd).errors cmd = errCount st.errors cmd + 1) ∧
    (strToLower cmd = "stop" ∨ strToLower cmd = "kill" → (d.stop ctr).err.isSome →
      mapGet (processCmd d ctr st cmd).durations cmd = some (d.stop ctr).elapsed ∧
      errCount (processCmd d ctr st cmd).errors cmd = errCount st.errors cmd + 1) ∧
    (strToLower cmd = "remove" ∨ strToLower cmd = "erase" ∨ strToLower cmd = "delete" →
      (d.remove ctr).err.isSome →
      mapGet (processCmd d ctr st cmd).durations cmd = some (d.remove ctr).elapsed ∧
      errCount (processCmd d ctr st cmd).errors cmd = errCount st.errors cmd + 1) ∧
    (strToLower cmd = "pause" → (d.pause ctr).err.isSome →
      mapGet (processCmd d ctr st cmd).durations cmd = some (d.pause ctr).elapsed ∧
      errCount (processCmd d ctr st cmd).errors cmd = errCount st.errors cmd + 1) ∧
    (strToLower cmd = "unpause" ∨ strToLower cmd = "resume" → (d.unpause ctr).err.isSome →
      mapGet (processCmd d ctr st cmd).durations cmd = some (d.unpause ctr).elapsed ∧
      errCount (processCmd d ctr st cmd).errors cmd = errCount st.errors cmd + 1) := by
  refine ⟨fun h herr => ?_, fun h herr => ?_, fun h herr => ?_, fun h herr => ?_,
    fun h herr => ?_⟩
  · rw [processCmd_run_alias d ctr st cmd h]
    simp [mapGet_mapSet_self, herr, errCount_errBump_self]
  · rw [processCmd_stop_alias d ctr st cmd h]
    simp [mapGet_mapSet_self, herr, errCount_errBump_self]
  · rw [processCmd_remove_alias d ctr st cmd h]
    simp [mapGet_mapSet_self, herr, errCount_errBump_self]
  · rw [processCmd_pause_alias d ctr st cmd h]
    simp [mapGet_mapSet_self, herr, errCount_errBump_self]
  · rw [processCmd_unpause_alias d ctr st cmd h]
    simp [mapGet_mapSet_self, herr, errCount_errBump_self]

/-- Witness for C10: the always-failing `Stop` of the mock driver still
records its elapsed time (3) under the original token `"Stop"`. -/
theorem failed_op_duration_recorded_witness :
    mapGet (processCmd mockStopFail ⟨"c"⟩ ⟨[], [], []⟩ "Stop").durations "Stop" =
      some 3 ∧
    errCount (processCmd mockStopFail ⟨"c"⟩ ⟨[], [], []⟩ "Stop").errors "Stop" = 0 + 1 :=
  (failed_op_duration_recorded mockStopFail ⟨"c"⟩ ⟨[], [], []⟩ "Stop").2.1
    (Or.inl rfl) rfl

/-- C8: `Stats()` returns the empty sequence whenever the bench state
is not `Completed` (freshly initialized or mid-run), and returns the
full collected statistics of `Run` once the state is `Completed`. -/
theorem stats_gated_by_state (d : Driver) (cb : CustomBench) (threads iterations : Nat)
    (commands : List String) :
    Stats (initBench d) = [] ∧
    (∀ cb' : CustomBench, cb'.state ≠ State.Completed → Stats cb' = []) ∧
    Stats { cb with state := State.Running } = [] ∧
    (RunBench cb threads iterations commands).1.state = State.Completed ∧
    Stats (RunBench cb threads iterations commands).1 =
      cb.stats ++ collectStats cb.driver threads iterations commands := by
  refine ⟨by simp [Stats, initBench], fun cb' h => by simp [Stats, h], by simp [Stats],
    by simp [RunBench], by simp [Stats, RunBench]⟩

/-- Witness for C8 on the mock driver: empty before and during the run,
the full 15-record sequence after. -/
theorem stats_gated_by_state_witness :
    Stats (initBench mockStopFail) = [] ∧
    Stats { driver := mockStopFail, stats := [⟨[], []⟩], state := State.Running } = [] ∧
    Stats (RunBench (initBench mockStopFail) 3 5 ["run", "stop", "remove"]).1 =
      [] ++ collectStats mockStopFail 3 5 ["run", "stop", "remove"] := by
  have h := stats_gated_by_state mockStopFail (initBench mockStopFail) 3 5
    ["run", "stop", "remove"]
  exact ⟨h.1, h.2.1 _ (by decide), h.2.2.2.2⟩

end benches

namespace cmd

/-!
## The statistics aggregation (`cmd/root.go`, run subcommand)

`parseStats`, `parseMetrics`, `filterStats`, `getDelta` and `intSum`
operate on `benches.RunStatistics` records in the form the aggregation
code consumes them: `Durations` maps command tokens to `time.Duration`
(an `int64` of nanoseconds, embedded as `Int`), `Errors` maps tokens to
counts, and `Daemon` is the optional resource sample that discriminates
operational records (`Daemon == nil`) from resource-sample records
(`Daemon != nil`).

The `github.com/montanaflynn/stats` helpers (`Min`, `Max`, `Mean`,
`Median`, `StandardDeviation`) are third-party; they are embedded by
their documented contract: on a non-empty input the statistic of the
values, on an empty input the zero value together with a raised error
(the Boolean flag below).  Go `float64` is embedded as `ℚ`; the square
root inside the standard deviation is stood in by `Rat.sqrt` (no claim
depends on its value).
-/

/-- Resource sample carried by a resource-sample record
(`ProcMetrics`): resident memory (uint64) and CPU fraction. -/
structure ProcMetrics where
  Mem : Nat
  CPU : ℚ
deriving DecidableEq, Repr

/-- Record `benches.RunStatistics` as consumed by the aggregation code. -/
structure RunStatistics where
  Durations : List (String × Int)
  Errors : List (String × Int)
  Timestamp : Int
  Daemon : Option ProcMetrics
deriving DecidableEq, Repr

/-- Function `filterStats`: keep the records passing `check`, in order. -/
def filterStats (stats : List RunStatistics) (check : RunStatistics → Bool) :
    List RunStatistics :=
  stats.filter check

/-- Library `stats.Min` of the montanaflynn library: minimum, or zero plus an
error on empty input. -/
def statsMin : List ℚ → ℚ × Bool
  | [] => (0, true)
  | x :: xs => (xs.foldl min x, false)

/-- Library `stats.Max`: maximum, or zero plus an error on empty input. -/
def statsMax : List ℚ → ℚ × Bool
  | [] => (0, true)
  | x :: xs => (xs.foldl max x, false)

/-- Library `stats.Mean`: arithmetic mean, or zero plus an error on empty
input. -/
def statsMean (l : List ℚ) : ℚ × Bool :=
  match l with
  | [] => (0, true)
  | _ => (l.sum / l.length, false)

/-- Insertion into a sorted list (used to model the library's sort). -/
def insertSorted (x : ℚ) : List ℚ → List ℚ
  | [] => [x]
  | y :: ys => if x ≤ y then x :: y :: ys else y :: insertSorted x ys

/-- Insertion sort (deterministic model of the library's sort). -/
def sortRats (l : List ℚ) : List ℚ :=
  l.foldr insertSorted []

/-- Library `stats.Median`: middle element of the sorted values (mean of the
two middles for even length), or zero plus an error on empty input. -/
def statsMedian (l : List ℚ) : ℚ × Bool :=
  match l with
  | [] => (0, true)
  | _ =>
    let s := sortRats l
    let c := l.length
    if c % 2 = 0 then (((s.getD (c / 2 - 1) 0) + s.getD (c / 2) 0) / 2, false)
    else (s.getD (c / 2) 0, false)

/-- Library `stats.StandardDeviation` (population): square root of the mean
squared deviation, or zero plus an error on empty input.  The float
square root is stood in by `Rat.sqrt`. -/
def statsStdDev (l : List ℚ) : ℚ × Bool :=
  match l with
  | [] => (0, true)
  | _ =>
    let m := (statsMean l).1
    (Rat.sqrt ((l.map fun x => (x - m) ^ 2).sum / l.length), false)

/-- Function `intSum`: sum of an int slice. -/
def intSum (slice : List Int) : Int :=
  slice.foldl (· + ·) 0

/-- Per-key aggregation result (`statResults`). -/
structure statResults where
  min : ℚ
  max : ℚ
  avg : ℚ
  median : ℚ
  stddev : ℚ
  errors : Int
deriving DecidableEq, Repr

/-- The body of `parseStats` after its filtering step (root.go lines
492-544), applied to the already-filtered operational records.  An
empty list is the case in which the Go code's `statistics[0]` indexing
panics with an index-out-of-range runtime error; the panic is embedded
as `none`.  The duration keys are taken from the FIRST record only
(root.go lines 494-499); durations are converted to whole milliseconds
by the integer division `duration.Nanoseconds() / int64(time.Millisecond)`
(truncated division, matching Go). -/
def parseStatsOps (statistics : List RunStatistics) :
    Option (List (String × statResults)) :=
  match statistics with
  | [] => none
  | first :: rest =>
    let ops := first :: rest
    let durationKeys := first.Durations.map Prod.fst
    let durationSeq : String → List ℚ := fun key =>
      (ops.filterMap fun s => benches.mapGet s.Durations key).map
        fun d => ((Int.tdiv d 1000000 : Int) : ℚ)
    let errorSeq : String → List Int := fun key =>
      ops.filterMap fun s => benches.mapGet s.Errors key
    some (durationKeys.map fun key =>
      (key,
        { min := (statsMin (durationSeq key)).1
          max := (statsMax (durationSeq key)).1
          avg := (statsMean (durationSeq key)).1
          median := (statsMedian (durationSeq key)).1
          stddev := (statsStdDev (durationSeq key)).1
          errors := intSum (errorSeq key) }))

/-- Function `parseStats` (root.go lines 483-545): filter to the operational
records (`Daemon == nil`), then aggregate per key. -/
def parseStats (statistics : List RunStatistics) :
    Option (List (String × statResults)) :=
  parseStatsOps (filterStats statistics fun stat => stat.Daemon.isNone)

/-- Aggregated resource metrics (`metricsResults`). -/
structure metricsResults where
  minMem : Nat
  maxMem : Nat
  avgMem : Nat
  minCPU : ℚ
  maxCPU : ℚ
  avgCPU : ℚ
deriving DecidableEq, Repr

/-- Go's `uint64(x)` conversion of a (nonnegative, in this code path)
float64: truncation. -/
def ratToUint64 (q : ℚ) : Nat :=
  q.floor.toNat

/-- Function `parseMetrics` (root.go lines 411-462): filter to the
resource-sample records (`Daemon != nil`), then aggregate memory and
CPU. -/
def parseMetrics (metrics : List RunStatistics) : metricsResults :=
  let filtered := filterStats metrics fun stat => stat.Daemon.isSome
  let mems := filtered.filterMap fun m => m.Daemon.map fun dm => (dm.Mem : ℚ)
  let cpus := filtered.filterMap fun m => m.Daemon.map fun dm => dm.CPU
  { minMem := ratToUint64 (statsMin mems).1
    maxMem := ratToUint64 (statsMax mems).1
    avgMem := ratToUint64 (statsMean mems).1
    minCPU := (statsMin cpus).1
    maxCPU := (statsMax cpus).1
    avgCPU := (statsMean cpus).1 }

/-- A Go `float64` value in the overhead comparison: either a finite
value (embedded as `ℚ`) or `math.Inf(1)`. -/
inductive GoFloat
  | fin (q : ℚ)
  | inf
deriving DecidableEq, Repr

/-- Function `getDelta` (root.go lines 288-297). -/
def getDelta (before after : ℚ) : GoFloat :=
  if before ≠ 0 then GoFloat.fin (after / before)
  else if after = 0 then GoFloat.fin 1
  else GoFloat.inf

/-- The memory percent change printed by `outputRunDetails` (root.go
line 387): `100*getDelta(avgA, avgB) - 100`. -/
def memPercentDelta (base comp : ℚ) : GoFloat :=
  match getDelta base comp with
  | GoFloat.fin q => GoFloat.fin (100 * q - 100)
  | GoFloat.inf => GoFloat.inf

theorem filterStats_idem (l : List RunStatistics) (p : RunStatistics → Bool) :
    filterStats (filterStats l p) p = filterStats l p := by
  simp [filterStats, List.filter_filter]

theorem filterStats_drop {r : RunStatistics} (l₁ l₂ : List RunStatistics)
    (p : RunStatistics → Bool) (hr : p r = false) :
    filterStats (l₁ ++ r :: l₂) p = filterStats (l₁ ++ l₂) p := by
  simp [filterStats, List.filter_append, hr]

/-- C4: the duration/error aggregation first filters to records with a
nil `Daemon` and the memory/CPU aggregation to records with a non-nil
`Daemon`, so each aggregation of a mixed sequence equals the aggregation
of only the records of its own kind; inserting a record of the other
kind anywhere changes nothing. -/
theorem aggregation_partition_invariant (l l₁ l₂ : List RunStatistics)
    (r s : RunStatistics) :
    parseStats l = parseStats (filterStats l fun st => st.Daemon.isNone) ∧
    parseMetrics l = parseMetrics (filterStats l fun st => st.Daemon.isSome) ∧
    (r.Daemon.isSome → parseStats (l₁ ++ r :: l₂) = parseStats (l₁ ++ l₂)) ∧
    (s.Daemon = none → parseMetrics (l₁ ++ s :: l₂) = parseMetrics (l₁ ++ l₂)) := by
  refine ⟨?_, ?_, ?_, ?_⟩
  · unfold parseStats
    rw [filterStats_idem]
  · unfold parseMetrics
    rw [filterStats_idem]
  · intro h
    unfold parseStats
    rw [filterStats_drop _ _ _ (by obtain ⟨v, hv⟩ := Option.isSome_iff_exists.mp h; simp [hv])]
  · intro h
    unfold parseMetrics
    rw [filterStats_drop _ _ _ (by simp [h])]

/-- An operational record (nil `Daemon`) used to instantiate the
aggregation claims. -/
def demoOpRecord : RunStatistics :=
  { Durations := [("run", 5000000)], Errors := [("run", 0)], Timestamp := 0, Daemon := none }

/-- A resource-sample record (non-nil `Daemon`) used to instantiate the
aggregation claims. -/
def demoSampleRecord : RunStatistics :=
  { Durations := [], Errors := [], Timestamp := 1, Daemon := some ⟨10, 1⟩ }

/-- Witness for C4 on a concrete mixed sequence. -/
theorem aggregation_partition_invariant_witness :
    parseStats [demoOpRecord, demoSampleRecord] = parseStats [demoOpRecord] ∧
    parseMetrics [demoSampleRecord, demoOpRecord] = parseMetrics [demoSampleRecord] := by
  have h₁ := (aggregation_partition_invariant [] [demoOpRecord] [] demoSampleRecord
    demoOpRecord).2.2.1 rfl
  have h₂ := (aggregation_partition_invariant [] [demoSampleRecord] [] demoSampleRecord
    demoOpRecord).2.2.2 rfl
  exact ⟨by simpa using h₁, by simpa using h₂⟩

/-- C5: the overhead ratio `getDelta` returns `after/before` for a
nonzero baseline (so baseline 10 and comparison 20 give ratio 2.0 and a
+100% memory delta), 1 when both averages are zero, and +infinity for a
zero baseline with a nonzero comparison. -/
theorem getDelta_edge_cases (b a : ℚ) :
    (b ≠ 0 → getDelta b a = GoFloat.fin (a / b)) ∧
    getDelta 0 0 = GoFloat.fin 1 ∧
    (a ≠ 0 → getDelta 0 a = GoFloat.inf) ∧
    getDelta 10 20 = GoFloat.fin 2 ∧
    memPercentDelta 10 20 = GoFloat.fin 100 := by
  refine ⟨fun h => by simp [getDelta, h], by simp [getDelta], fun h => by simp [getDelta, h],
    ?_, ?_⟩
  · rw [show getDelta 10 20 = GoFloat.fin (20 / 10) from by simp [getDelta]]
    norm_num
  · rw [show memPercentDelta 10 20 = GoFloat.fin (100 * (20 / 10) - 100) from by
      simp [memPercentDelta, getDelta]]
    norm_num

/-- Witness for C5 at concrete averages 5 and 7 (and 0 and 7). -/
theorem getDelta_edge_cases_witness :
    getDelta 5 7 = GoFloat.fin (7 / 5) ∧ getDelta 0 7 = GoFloat.inf :=
  ⟨(getDelta_edge_cases 5 7).1 (by norm_num), (getDelta_edge_cases 5 7).2.2.1 (by norm_num)⟩

/-- C6 (code bug evidence): every statistical helper on an empty input
indeed yields the zero value together with an error — but `parseStats`
on a sequence whose operational partition is empty does NOT terminate
normally: the Go code indexes `statistics[0]` and panics (embedded as
`none`), both for the empty sequence and for a sequence holding only a
resource-sample record. -/
theorem parseStats_empty_partition_behavior :
    parseStats [] = none ∧
    parseStats [RunStatistics.mk [("run", 5)] [] 3 (some ⟨10, 1⟩)] = none ∧
    statsMin [] = (0, true) ∧ statsMax [] = (0, true) ∧ statsMean [] = (0, true) ∧
    statsMedian [] = (0, true) ∧ statsStdDev [] = (0, true) :=
  ⟨rfl, rfl, rfl, rfl, rfl, rfl, rfl⟩

/-- C7: when the operational partition is non-empty, the key list of the
per-key statistics returned by `parseStats` is exactly the key list of
the FIRST operational record's duration map — keys appearing only in
later records are silently omitted. -/
theorem parseStats_keys_from_first (sts : List RunStatistics) (first : RunStatistics)
    (rest : List RunStatistics)
    (h : filterStats sts (fun st => st.Daemon.isNone) = first :: rest) :
    (parseStats sts).map (fun res => res.map Prod.fst) =
      some (first.Durations.map Prod.fst) := by
  unfold parseStats
  rw [h]
  unfold parseStatsOps
  simp [List.map_map, Function.comp]

/-- A second operational record carrying a key (`"stop"`) that the
first record does not have. -/
def demoSecondRecord : RunStatistics :=
  { Durations := [("run", 6000000), ("stop", 7000000)], Errors := [], Timestamp := 0,
    Daemon := none }

/-- Witness for C7: the `"stop"` key present only in the second record
is dropped; the keys of the result are exactly those of the first
record. -/
theorem parseStats_keys_from_first_witness :
    (parseStats [demoOpRecord, demoSecondRecord]).map (fun res => res.map Prod.fst) =
      some ["run"] := by
  have h := parseStats_keys_from_first [demoOpRecord, demoSecondRecord] demoOpRecord
    [demoSecondRecord] rfl
  simpa using h

end cmd

namespace driver

/-!
## The backend factory (`driver` package, `src/unnamed/part_004`)

`driver.Type` is a Go `int` (embedded as `Int`) with the iota constants
below.  `New` switches on the type: each recognized daemon/CLI variant
delegates to its constructor, `Null` returns a nil driver WITH a nil
error, and only an integer outside the enum reaches the error branch.
`StringToType` maps the six recognized identifier strings to their
constants and maps EVERY other string to `Null`. -/

/-- Go type `driver.Type` (a Go `int`). -/
abbrev DriverType := Int

/-- Constant `DockerCLI Type = iota` -/
def DockerCLI : DriverType := 0

/-- Constant `Docker` -/
def Docker : DriverType := 1

/-- Constant `Runc` -/
def Runc : DriverType := 2

/-- Constant `Containerd` -/
def Containerd : DriverType := 3

/-- Constant `Ctr` -/
def Ctr : DriverType := 4

/-- Constant `CRI` -/
def CRI : DriverType := 5

/-- Constant `Null` -/
def Null : DriverType := 6

/-- Outcome of `driver.New`: delegation to a backend constructor, the
`(nil, nil)` result of the `Null` case, or the default-branch error. -/
inductive NewResult
  | constructed (ctor : String)
  | nilDriver
  | err (msg : String)
deriving DecidableEq, Repr

/-- Predicate: `true` exactly on the error outcome (a non-nil Go error). -/
def NewResult.isErr : NewResult → Bool
  | NewResult.err _ => true
  | _ => false

/-- Function `driver.New` (part_004 lines 123-143), switching on
`config.DriverType`; constructor calls are represented by the
constructor's name. -/
def New (driverType : DriverType) : NewResult :=
  if driverType = Runc then NewResult.constructed "NewRuncDriver"
  else if driverType = DockerCLI then NewResult.constructed "NewDockerCLIDriver"
  else if driverType = Docker then NewResult.constructed "NewDockerDriver"
  else if driverType = Containerd then NewResult.constructed "NewContainerdDriver"
  else if driverType = Ctr then NewResult.constructed "NewCtrDriver"
  else if driverType = CRI then NewResult.constructed "NewCRIDriver"
  else if driverType = Null then NewResult.nilDriver
  else NewResult.err "no such driver type"

/-- Function `driver.StringToType` (part_004 lines 165-185): the six recognized
names map to their constants; the `default` branch maps everything else
to `Null`. -/
def StringToType (dtype : String) : DriverType :=
  if dtype = "DockerCLI" then DockerCLI
  else if dtype = "Docker" then Docker
  else if dtype = "Containerd" then Containerd
  else if dtype = "Ctr" then Ctr
  else if dtype = "Runc" then Runc
  else if dtype = "CRI" then CRI
  else Null

/-- The backend identifier strings `StringToType` recognizes. -/
def recognizedTypeNames : List String :=
  ["DockerCLI", "Docker", "Containerd", "Ctr", "Runc", "CRI"]

/-- C9 counterexample: the factory path applied to the unrecognized
identifier `"bogus"` yields the nil driver with a nil error — a silent
no-op result, not a configuration error. -/
theorem unrecognized_backend_counterexample :
    StringToType "bogus" = Null ∧
    New (StringToType "bogus") = NewResult.nilDriver ∧
    (New (StringToType "bogus")).isErr = false := by
  refine ⟨by decide, by decide, by decide⟩

/-- C9 amended: an unrecognized backend identifier is mapped by
`StringToType` to the `Null` type, on which `New` succeeds with a nil
driver and nil error (never the error branch): unrecognized identifiers
are a silent no-op at the factory, not a configuration error. -/
theorem unrecognized_backend_maps_to_null (s : String)
    (h : s ∉ recognizedTypeNames) :
    StringToType s = Null ∧ New (StringToType s) = NewResult.nilDriver ∧
    (New (StringToType s)).isErr = false := by
  simp only [recognizedTypeNames, List.mem_cons, List.not_mem_nil, or_false, not_or] at h
  obtain ⟨h₁, h₂, h₃, h₄, h₅, h₆⟩ := h
  have hT : StringToType s = Null := by
    simp [StringToType, h₁, h₂, h₃, h₄, h₅, h₆]
  refine ⟨hT, ?_, ?_⟩ <;> rw [hT] <;> decide

/-- Witness for the amended C9 at the identifier `"bogus"`. -/
theorem unrecognized_backend_maps_to_null_witness :
    StringToType "bogus" = Null ∧ New (StringToType "bogus") = NewResult.nilDriver ∧
    (New (StringToType "bogus")).isErr = false :=
  unrecognized_backend_maps_to_null "bogus" (by decide)

end driver

